import Mathlib

/-!
Verification development for the JinaSum chat plugin (`jina_sum.py`).

The plugin is embedded shallowly: every definition below is translated from
the Python source.  Strings are modelled as lists of characters (Python
slices, `startswith`, `strip` and `split` operate on characters), times as
integers (seconds), and the two in-memory caches (`pending_messages`,
`content_cache`) as association lists with Python-dict semantics: at most
one binding per key, assignment overwrites.  The two network calls
(the jina reader GET and the chat-completion POST) are at the system
boundary and are modelled as per-attempt oracles `Nat → FetchResult`
indexed by the retry counter; `html.unescape` is likewise an external
stdlib call passed in as a function parameter.
-/

namespace JinaSum

/-- Python strings, modelled as character lists (Python indexes/slices by
character, as does `startswith`/`strip`/`split`). -/
abbrev Str := List Char

/-- Python whitespace test used by `str.strip()`, `str.split()` and the
regex class in the source handler.  We model the ASCII whitespace
characters (space, tab, LF, CR, VT, FF); the claims only involve ASCII
space. -/
def pyIsSpace (c : Char) : Bool :=
  decide (c = ' ') || decide (c = '\t') || decide (c = '\n') || decide (c = '\r') ||
  decide (c = '\x0b') || decide (c = '\x0c')

/-- Python `str.strip()` with no arguments: drop whitespace from both ends
(source line 258 and line 543). -/
def pyStrip (s : Str) : Str :=
  ((s.dropWhile pyIsSpace).reverse.dropWhile pyIsSpace).reverse

/-- Helper for `pySplit`: accumulates the current word (reversed). -/
def pySplitAux : Str → Str → List Str
  | [], acc => if acc.isEmpty then [] else [acc.reverse]
  | c :: rest, acc =>
    if pyIsSpace c then
      if acc.isEmpty then pySplitAux rest [] else acc.reverse :: pySplitAux rest []
    else
      pySplitAux rest (c :: acc)

/-- Python `str.split()` with no arguments: split on whitespace runs,
discarding empty tokens (source line 288: `clist = content.split()`). -/
def pySplit (s : Str) : List Str :=
  pySplitAux s []

/-- Python `s.startswith(pat)` (source lines 273, 279, 550, 555). -/
def startsWithL : Str → Str → Bool
  | _, [] => true
  | [], _ :: _ => false
  | c :: cs, p :: ps => if c = p then startsWithL cs ps else false

/-- Characters allowed in a URL scheme by `urllib.parse` (ASCII letters,
digits, `+`, `-`, `.`). -/
def isSchemeChar (c : Char) : Bool :=
  c.isAlpha || c.isDigit || decide (c = '+') || decide (c = '-') || decide (c = '.')

/-- Split a string at its first `:` , returning the parts before and after
it (models `url.find(':')` inside `urllib.parse.urlparse`). -/
def findColon : Str → Option (Str × Str)
  | [] => none
  | c :: rest =>
    if c = ':' then some ([], rest)
    else
      match findColon rest with
      | some (pre, post) => some (c :: pre, post)
      | none => none

/-- The scheme-splitting step of `urllib.parse.urlparse`: a scheme is
recognised when the text before the first `:` is non-empty, starts with an
ASCII letter and consists of scheme characters; otherwise the scheme is
empty and the input is left whole. -/
def splitScheme (url : Str) : Str × Str :=
  match findColon url with
  | none => ([], url)
  | some (pre, post) =>
    match pre with
    | [] => ([], url)
    | c0 :: _ =>
      if c0.isAlpha && pre.all isSchemeChar then (pre.map Char.toLower, post)
      else ([], url)

/-- The netloc-splitting step of `urllib.parse.urlparse`: after the scheme,
a netloc is present when the remainder starts with `//`; it extends to the
next `/`, `?` or `#`. -/
def splitNetloc (rest : Str) : Str :=
  match rest with
  | '/' :: '/' :: r =>
    r.takeWhile (fun c => !(decide (c = '/') || decide (c = '?') || decide (c = '#')))
  | _ => []

/-- The part of `urlparse` that `_check_url` consumes: whether both
`parsed_url.scheme` and `parsed_url.netloc` are non-empty (source
line 545). -/
def hasSchemeAndNetloc (url : Str) : Bool :=
  let sp := splitScheme url
  !sp.1.isEmpty && !(splitNetloc sp.2).isEmpty

/-- Plugin configuration: the entries of `DEFAULT_CONFIG` consumed by the
embedded core, plus `qa_trigger` (initialised in `__init__`, line 69) and
the group-chat command words read from the main config (line 108; named
`group_chat_prefix` in the source). -/
structure Config where
  black_url_list : List Str
  white_url_list : List Str
  black_group_list : List Str
  white_group_list : List Str
  black_user_list : List Str
  white_user_list : List Str
  auto_sum : Bool
  pending_messages_timeout : Int
  content_cache_timeout : Int
  group_chat_pfx : List Str
  qa_trigger : Str
  max_words : Nat

/-- `JinaSum._check_url` (source lines 534-558): strip, require a scheme
and host, then blacklist (first, takes precedence), then whitelist gate. -/
def checkUrl (cfg : Config) (target : Str) : Bool :=
  let stripped := pyStrip target
  if !(hasSchemeAndNetloc stripped) then
    false
  else if cfg.black_url_list.any (fun b => startsWithL stripped b) then
    false
  else if !cfg.white_url_list.isEmpty then
    cfg.white_url_list.any (fun w => startsWithL stripped w)
  else
    true

/-- `JinaSum._should_auto_summarize` (source lines 184-199). -/
def shouldAutoSummarize (cfg : Config) (chatId : Str) (isGroup : Bool) : Bool :=
  if isGroup then
    if decide (chatId ∈ cfg.black_group_list) then false
    else if !cfg.white_group_list.isEmpty && decide (chatId ∈ cfg.white_group_list) then true
    else cfg.auto_sum
  else
    if decide (chatId ∈ cfg.black_user_list) then false
    else if !cfg.white_user_list.isEmpty && decide (chatId ∈ cfg.white_user_list) then true
    else cfg.auto_sum

/-- An entry of `self.pending_messages` (source lines 238-241): the shared
content together with the put time. -/
structure PendingEntry where
  content : Str
  timestamp : Int
  deriving DecidableEq

/-- An entry of `self.content_cache` (source lines 383-387): the target
URL, the truncated extracted content and the write time. -/
structure CacheEntry where
  url : Str
  content : Str
  timestamp : Int
  deriving DecidableEq

/-- The mutable plugin state: both in-memory caches, keyed by the resolved
conversation identity (`chat_id`). -/
structure PluginState where
  pending_messages : List (Str × PendingEntry)
  content_cache : List (Str × CacheEntry)
  deriving DecidableEq

/-- First value bound to `k` in an association list (a Python dict read). -/
def alLookup {α : Type} (k : Str) : List (Str × α) → Option α
  | [] => none
  | kv :: rest => if kv.1 = k then some kv.2 else alLookup k rest

/-- Remove every binding of `k` (Python `del d[k]`; a dict holds at most
one binding per key, so erasing all occurrences models deletion). -/
def alErase {α : Type} (k : Str) : List (Str × α) → List (Str × α)
  | [] => []
  | kv :: rest => if kv.1 = k then alErase k rest else kv :: alErase k rest

/-- Python dict assignment `d[k] = v`: at most one binding per key, the new
value wins. -/
def alInsert {α : Type} (k : Str) (v : α) (l : List (Str × α)) : List (Str × α) :=
  (k, v) :: alErase k l

/-- Number of bindings of key `k` (used to state the one-entry-per-identity
invariant). -/
def alCountKey {α : Type} (k : Str) : List (Str × α) → Nat
  | [] => 0
  | kv :: rest => (if kv.1 = k then 1 else 0) + alCountKey k rest

/-- The pending-share put of the handler, source lines 238-241: dict
assignment of a fresh content/timestamp entry under `chat_id`. -/
def putPending (chatId content : Str) (t : Int) (l : List (Str × PendingEntry)) :
    List (Str × PendingEntry) :=
  alInsert chatId { content := content, timestamp := t } l

/-- `JinaSum._clean_expired_cache` (source lines 306-325): drop every entry
of either cache whose age strictly exceeds its timeout. -/
def cleanExpiredCache (cfg : Config) (st : PluginState) (now : Int) : PluginState :=
  { pending_messages := st.pending_messages.filter
      (fun kv => !(decide (now - kv.2.timestamp > cfg.pending_messages_timeout))),
    content_cache := st.content_cache.filter
      (fun kv => !(decide (now - kv.2.timestamp > cfg.content_cache_timeout))) }

/-- Count of leading whitespace characters (the maximal text `\s*` can
consume at the start of the subject). -/
def wsCount (s : Str) : Nat :=
  (s.takeWhile pyIsSpace).length

/-- One attempt of the handler's prefix regex at a fixed start position:
the literal command word must follow, then at least one whitespace
character; `\s+` is greedy, so all following whitespace is consumed.
Returns the remainder left by `re.sub(pattern, '', content)`. -/
def tryMatchAfterWs (pfx s : Str) : Option Str :=
  if startsWithL s pfx then
    match s.drop pfx.length with
    | [] => none
    | c :: rest => if pyIsSpace c then some ((c :: rest).dropWhile pyIsSpace) else none
  else none

/-- Backtracking over how many leading whitespace characters `\s*`
consumes: greedy first (largest count), then back off one at a time. -/
def matchPfxFrom (pfx s : Str) : Nat → Option Str
  | 0 => tryMatchAfterWs pfx s
  | k + 1 =>
    match tryMatchAfterWs pfx (s.drop (k + 1)) with
    | some r => some r
    | none => matchPfxFrom pfx s k

/-- `re.match(r'^\s*PFX\s+', content)` followed by removal of the matched
span (source lines 266-271). -/
def matchGroupPfx (pfx s : Str) : Option Str :=
  matchPfxFrom pfx s (wsCount s)

/-- The prefix loop of the handler (source lines 266-271): first matching
command word wins and is stripped; otherwise the text is left as-is. -/
def applyGroupPfxs : List Str → Str → Str
  | [], content => content
  | p :: ps, content =>
    match matchGroupPfx p content with
    | some rest => rest
    | none => applyGroupPfxs ps content

/-- `bridge.context.ContextType`, restricted to the cases the handler
distinguishes (everything else is returned on immediately). -/
inductive ContextType where
  | TEXT
  | SHARING
  | OTHER
  deriving DecidableEq

/-- An inbound event, with the conversation identity already resolved
(`_get_group_name` / `_get_user_nickname` call an external directory
service and are at the system boundary). -/
structure Msg where
  ctype : ContextType
  content : Str
  isGroup : Bool
  chatId : Str
  deriving DecidableEq

/-- `bridge.reply.ReplyType`, restricted to the kinds the plugin emits. -/
inductive ReplyType where
  | TEXT
  | ERROR
  deriving DecidableEq

/-- `bridge.reply.Reply`. -/
structure Reply where
  rtype : ReplyType
  content : Str
  deriving DecidableEq

/-- What `on_handle_context` does after the common bookkeeping: nothing,
set a reply directly, or delegate to one of the two orchestrators.  The
source defines `_process_question`, so dispatching to it is representable;
whether any path produces it is settled by a theorem below. -/
inductive HandlerAction where
  | none
  | textReply (msg : Str)
  | processSummary (content : Str) (skipNotice : Bool)
  | processQuestion (question : Str)
  deriving DecidableEq

/-- The `elif chat_id in self.pending_messages` branch of the TEXT path
(source lines 295-304): consume the pending share (read, delete, summarize
with the progress notice suppressed), else do nothing. -/
def takePendingBranch (st1 : PluginState) (chatId : Str) : PluginState × HandlerAction :=
  match alLookup chatId st1.pending_messages with
  | some e =>
    ({ st1 with pending_messages := alErase chatId st1.pending_messages },
     HandlerAction.processSummary e.content true)
  | none => (st1, HandlerAction.none)

/-- `JinaSum.on_handle_context` (source lines 201-304). -/
def onHandleContext (cfg : Config) (st : PluginState) (now : Int) (m : Msg) :
    PluginState × HandlerAction :=
  match m.ctype with
  | ContextType.OTHER => (st, HandlerAction.none)
  | ContextType.SHARING =>
    let st1 := cleanExpiredCache cfg st now
    if !(checkUrl cfg m.content) then
      (st1, HandlerAction.textReply ( "无效的URL或被禁止的URL。".data))
    else if m.isGroup then
      if shouldAutoSummarize cfg m.chatId m.isGroup then
        (st1, HandlerAction.processSummary m.content false)
      else
        ({ st1 with pending_messages := putPending m.chatId m.content now st1.pending_messages },
         HandlerAction.none)
    else
      if shouldAutoSummarize cfg m.chatId m.isGroup then
        (st1, HandlerAction.processSummary m.content false)
      else
        (st1, HandlerAction.none)
  | ContextType.TEXT =>
    let st1 := cleanExpiredCache cfg st now
    let content0 := pyStrip m.content
    let content := if m.isGroup then applyGroupPfxs cfg.group_chat_pfx content0 else content0
    if !(startsWithL content ( "总结".data)) then
      (st1, HandlerAction.none)
    else
      match (pySplit content).get? 1 with
      | some u =>
        if checkUrl cfg u then (st1, HandlerAction.processSummary u false)
        else takePendingBranch st1 m.chatId
      | none => takePendingBranch st1 m.chatId

/-- The plugin's default configuration (`DEFAULT_CONFIG`, source lines
36-52, plus the `qa_trigger` default from line 69 and the empty
group-prefix default from line 108). -/
def baseConfig : Config :=
  { black_url_list := [ "https://support.weixin.qq.com".data,
                        "https://channels-aladin.wxqcloud.qq.com".data ],
    white_url_list := [],
    black_group_list := [],
    white_group_list := [],
    black_user_list := [],
    white_user_list := [],
    auto_sum := true,
    pending_messages_timeout := 60,
    content_cache_timeout := 300,
    group_chat_pfx := [],
    qa_trigger := "问".data,
    max_words := 8000 }

/-- Result of a remote HTTP round-trip at the system boundary: either the
successfully obtained payload (the response body for the jina reader; the
parsed `choices[0].message.content` for the chat completion) or the
exception message Python's `str(e)` would carry (network error, non-2xx
`raise_for_status`, malformed JSON / missing keys). -/
inductive FetchResult where
  | ok (body : Str)
  | err (msg : Str)
  deriving DecidableEq

/-- The jina-reader GET of `_process_summary` (source lines 352-360): a
transport/status failure raises, and an empty 2xx body raises
`ValueError("Empty response from jina reader")`; both re-raise to the
outer handler.  The oracle is indexed by the retry counter. -/
def extractStep (fetchJina : Nat → FetchResult) (rc : Nat) : Except Str Str :=
  match fetchJina rc with
  | FetchResult.err m => Except.error m
  | FetchResult.ok body =>
    if body.isEmpty then Except.error ( "Empty response from jina reader".data)
    else Except.ok body

/-- Observable outcome of one `_process_summary` call (including its
recursive retries): how many progress notices were sent over the channel,
how many jina extraction calls and chat-completion calls were issued, the
final reply set on the event context, and the final `content_cache`. -/
structure SummaryRun where
  notices : Nat
  extractionAttempts : Nat
  completionAttempts : Nat
  reply : Reply
  contentCache : List (Str × CacheEntry)
  deriving DecidableEq

/-- `JinaSum._process_summary` (source lines 327-403).

Control flow from the source: a progress notice is sent only when
`retry_count == 0 and not skip_notice` (line 338); the jina extraction is
attempted and any of its failures re-raises to the outer `except`, which
retries the whole body with `retry_count + 1` while `retry_count < 3`
(line 398) and otherwise sets the terminal `无法获取该内容` error reply;
the chat-completion call sits in an inner `try` whose `except` swallows
the failure, sets the `内容总结出现错误` error reply and does NOT
re-raise, so a completion failure never reaches the retry logic; the
`content_cache` write (lines 383-387) happens only after the summary text
was extracted from the completion response.  `unesc` is `html.unescape`
(stdlib, at the boundary); the cached content is the body truncated to
`max_words` (line 363). -/
def processSummary (fetchJina fetchLLM : Nat → FetchResult) (cfg : Config)
    (unesc : Str → Str) (content chatId : Str)
    (cache : List (Str × CacheEntry)) (now : Int)
    (rc : Nat) (skipNotice : Bool) : SummaryRun :=
  let noticeCount : Nat := if rc == 0 && !skipNotice then 1 else 0
  match extractStep fetchJina rc with
  | Except.error m =>
    if h : rc < 3 then
      let rest := processSummary fetchJina fetchLLM cfg unesc content chatId cache now
        (rc + 1) false
      { notices := noticeCount + rest.notices,
        extractionAttempts := 1 + rest.extractionAttempts,
        completionAttempts := rest.completionAttempts,
        reply := rest.reply,
        contentCache := rest.contentCache }
    else
      { notices := noticeCount, extractionAttempts := 1, completionAttempts := 0,
        reply := { rtype := ReplyType.ERROR, content := "无法获取该内容: ".data ++ m },
        contentCache := cache }
  | Except.ok body =>
    match fetchLLM rc with
    | FetchResult.ok summary =>
      { notices := noticeCount, extractionAttempts := 1, completionAttempts := 1,
        reply := { rtype := ReplyType.TEXT, content := summary },
        contentCache := alInsert chatId
          { url := unesc content, content := body.take cfg.max_words, timestamp := now } cache }
    | FetchResult.err m =>
      { notices := noticeCount, extractionAttempts := 1, completionAttempts := 1,
        reply := { rtype := ReplyType.ERROR, content := "内容总结出现错误: ".data ++ m },
        contentCache := cache }
termination_by 3 - rc
decreasing_by omega

/-- Observable outcome of one `_process_question` call including retries. -/
structure QuestionRun where
  notices : Nat
  completionAttempts : Nat
  reply : Reply
  deriving DecidableEq

/-- The reply `_process_question` sets when the content cache has no fresh
entry for the conversation (source line 421). -/
def expiredQuestionRun : QuestionRun :=
  { notices := 0, completionAttempts := 0,
    reply := { rtype := ReplyType.TEXT,
               content := "总结内容已过期或不存在，请重新总结后重试。".data } }

/-- `JinaSum._process_question` (source lines 405-460): stale or missing
cache returns at once with no retry and no remote call; otherwise a
thinking notice on the first attempt, one chat-completion call, and on
failure a retry of the whole body while `retry_count < 3`.  This function
is defined by the source but, as proved below, never reached from
`on_handle_context`. -/
def processQuestion (fetchLLM : Nat → FetchResult) (cfg : Config)
    (question chatId : Str) (cache : List (Str × CacheEntry)) (now : Int)
    (rc : Nat) : QuestionRun :=
  match alLookup chatId cache with
  | some e =>
    if now - e.timestamp ≤ cfg.content_cache_timeout then
      let noticeCount : Nat := if rc == 0 then 1 else 0
      match fetchLLM rc with
      | FetchResult.ok answer =>
        { notices := noticeCount, completionAttempts := 1,
          reply := { rtype := ReplyType.TEXT, content := answer } }
      | FetchResult.err m =>
        if h : rc < 3 then
          let rest := processQuestion fetchLLM cfg question chatId cache now (rc + 1)
          { notices := noticeCount + rest.notices,
            completionAttempts := 1 + rest.completionAttempts,
            reply := rest.reply }
        else
          { notices := noticeCount, completionAttempts := 1,
            reply := { rtype := ReplyType.ERROR,
                       content := "抱歉，处理您的问题时出错: ".data ++ m } }
    else expiredQuestionRun
  | none => expiredQuestionRun
termination_by 3 - rc
decreasing_by omega

/-- A sequence of shares from one conversation, applied to the pending
cache in arrival order through the handler's put (source lines 238-241). -/
def applyShares (chat : Str) (shares : List (Str × Int))
    (l : List (Str × PendingEntry)) : List (Str × PendingEntry) :=
  shares.foldl (fun acc sh => putPending chat sh.1 sh.2 acc) l

/-- The default configuration with `auto_sum` turned off, so that no
conversation is eligible for automatic summarization. -/
def cfgNoAuto : Config := { baseConfig with auto_sum := false }

/-- The default configuration with one configured group command word. -/
def cfgBot : Config := { baseConfig with group_chat_pfx := [ "@bot".data ] }

/-- A configuration whose blacklist and whitelist share a prefix, to
exercise blacklist precedence. -/
def cfgBW : Config := { baseConfig with
  black_url_list := [ "https://b.example".data ],
  white_url_list := [ "https://b.example".data ] }

/-- A summarization run in which every extraction call succeeds with a
non-empty body and every chat-completion call fails. -/
def completionFailRun : SummaryRun :=
  processSummary (fun _ => FetchResult.ok ( "BODY".data))
    (fun _ => FetchResult.err ( "boom".data))
    baseConfig (fun s => s) ( "https://example.com/a".data) ( "g".data) [] 0 0 false

/-! ## Association-list and string helper lemmas -/

theorem alLookup_alInsert {α : Type} (k : Str) (v : α) (l : List (Str × α)) :
    alLookup k (alInsert k v l) = some v := by
  simp [alInsert, alLookup]

theorem alLookup_alErase {α : Type} (k : Str) (l : List (Str × α)) :
    alLookup k (alErase k l) = none := by
  induction l with
  | nil => rfl
  | cons kv rest ih =>
    by_cases h : kv.1 = k
    · simp [alErase, h, ih]
    · simp [alErase, h, alLookup, ih]

theorem alLookup_filter_alErase {α : Type} (k : Str) (p : Str × α → Bool)
    (l : List (Str × α)) :
    alLookup k ((alErase k l).filter p) = none := by
  induction l with
  | nil => rfl
  | cons kv rest ih =>
    by_cases h : kv.1 = k
    · simp [alErase, h, ih]
    · by_cases hp : p kv
      · simp [alErase, h, List.filter_cons, hp, alLookup, ih]
      · simp [alErase, h, List.filter_cons, hp, ih]

theorem alCountKey_alErase {α : Type} (k : Str) (l : List (Str × α)) :
    alCountKey k (alErase k l) = 0 := by
  induction l with
  | nil => rfl
  | cons kv rest ih =>
    by_cases h : kv.1 = k
    · simp [alErase, h, ih]
    · simp [alErase, h, alCountKey, ih]

theorem alCountKey_alInsert {α : Type} (k : Str) (v : α) (l : List (Str × α)) :
    alCountKey k (alInsert k v l) = 1 := by
  simp [alInsert, alCountKey, alCountKey_alErase]

theorem dropWhile_eq_self_of_all (p : Char → Bool) (s : Str)
    (h : ∀ c ∈ s, p c = false) : s.dropWhile p = s := by
  cases s with
  | nil => rfl
  | cons c cs => simp [List.dropWhile_cons, h c (List.mem_cons_self c cs)]

theorem pyStrip_eq_self (s : Str) (h : ∀ c ∈ s, pyIsSpace c = false) :
    pyStrip s = s := by
  unfold pyStrip
  rw [dropWhile_eq_self_of_all _ _ h]
  rw [dropWhile_eq_self_of_all _ _ (by intro c hc; exact h c (List.mem_reverse.mp hc))]
  exact List.reverse_reverse s

theorem startsWithL_nil (s : Str) : startsWithL s [] = true := by
  cases s <;> rfl

theorem startsWithL_append_self (p t : Str) : startsWithL (p ++ t) p = true := by
  induction p with
  | nil => exact startsWithL_nil t
  | cons c cs ih => simp [startsWithL, ih]

/-! ## Claim theorems -/

/-- C1 (refuting the claimed dispatch): the claim says a TEXT message
starting with the configured question trigger, in a conversation with a
fresh summary-cache entry, makes the handler invoke the question
orchestrator.  In the source, `on_handle_context` never dispatches to
`_process_question` for ANY input: the TEXT path only tests for the
summarize keyword, and `qa_trigger` is read in `__init__` but never
consulted.  `_process_question` is dead code (its only caller is its own
retry), even though the plugin's help text (source lines 490-493)
advertises the question feature.  This theorem proves that no
configuration, state, time or message can make the handler return a
question dispatch. -/
theorem handler_never_invokes_question (cfg : Config) (st : PluginState)
    (now : Int) (m : Msg) (q : Str) :
    (onHandleContext cfg st now m).2 ≠ HandlerAction.processQuestion q := by
  have htake : ∀ (st1 : PluginState) (c : Str),
      (takePendingBranch st1 c).2 ≠ HandlerAction.processQuestion q := by
    intro st1 c
    unfold takePendingBranch
    cases alLookup c st1.pending_messages <;> simp
  obtain ⟨ct, content, isG, chat⟩ := m
  cases ct with
  | OTHER => simp [onHandleContext]
  | SHARING =>
    simp only [onHandleContext]
    repeat' split
    all_goals simp
  | TEXT =>
    simp only [onHandleContext]
    repeat' split
    all_goals first | exact htake _ _ | simp

/-- C2 counterexample: a run in which extraction always succeeds and the
chat-completion call always fails makes exactly ONE attempt (one
extraction call, one completion call) and immediately returns the inner
error reply — not the 4 attempts the claim states.  The inner `except`
around the completion call (source lines 390-394) swallows the failure
without re-raising, so it never reaches the outer retry logic. -/
theorem completion_failure_not_retried_cx :
    completionFailRun.extractionAttempts = 1
    ∧ completionFailRun.completionAttempts = 1
    ∧ ¬(completionFailRun.extractionAttempts = 4)
    ∧ completionFailRun.reply
        = { rtype := ReplyType.ERROR,
            content := "内容总结出现错误: ".data ++ "boom".data } := by
  have h : completionFailRun
      = { notices := 1, extractionAttempts := 1, completionAttempts := 1,
          reply := { rtype := ReplyType.ERROR,
                     content := "内容总结出现错误: ".data ++ "boom".data },
          contentCache := [] } := by
    unfold completionFailRun
    rw [processSummary]
    simp [extractStep]
  rw [h]
  refine ⟨rfl, rfl, by decide, rfl⟩

/-- C2 amended: when extraction succeeds (non-empty body) and the
chat-completion step fails on the first attempt, `_process_summary` does
NOT retry: it returns after a single attempt with the error-typed reply
`内容总结出现错误` carrying that failure's message, leaving the cache
unchanged.  The retry loop applies only to extraction failures. -/
theorem summary_no_retry_on_completion_failure
    (fetchJina fetchLLM : Nat → FetchResult) (cfg : Config) (unesc : Str → Str)
    (content chatId : Str) (cache : List (Str × CacheEntry)) (now : Int)
    (body m : Str)
    (hok : fetchJina 0 = FetchResult.ok body) (hne : body ≠ [])
    (hllm : fetchLLM 0 = FetchResult.err m) :
    processSummary fetchJina fetchLLM cfg unesc content chatId cache now 0 false
      = { notices := 1, extractionAttempts := 1, completionAttempts := 1,
          reply := { rtype := ReplyType.ERROR,
                     content := "内容总结出现错误: ".data ++ m },
          contentCache := cache } := by
  cases body with
  | nil => exact absurd rfl hne
  | cons c csb =>
    rw [processSummary]
    simp [extractStep, hok, hllm]

/-- C2 amended, witnessed at concrete oracles. -/
theorem summary_no_retry_on_completion_failure_witness :
    processSummary (fun _ => FetchResult.ok ( "B".data))
        (fun _ => FetchResult.err ( "x".data)) baseConfig (fun s => s)
        ( "https://example.com/a".data) ( "g".data) [] 0 0 false
      = { notices := 1, extractionAttempts := 1, completionAttempts := 1,
          reply := { rtype := ReplyType.ERROR,
                     content := "内容总结出现错误: ".data ++ "x".data },
          contentCache := [] } :=
  summary_no_retry_on_completion_failure (fun _ => FetchResult.ok ( "B".data))
    (fun _ => FetchResult.err ( "x".data)) baseConfig (fun s => s)
    ( "https://example.com/a".data) ( "g".data) [] 0 ( "B".data) ( "x".data)
    rfl (by decide) rfl

/-- C3 counterexample: a SHARING message with a valid URL in a DIRECT
conversation not eligible for auto-summarize creates no pending entry at
all — the handler just returns, leaving both caches empty — contradicting
the claim that such shares are cached for group and direct conversations
alike (source lines 246-253: the non-group branch has no put). -/
theorem direct_share_creates_no_pending_cx :
    (onHandleContext cfgNoAuto { pending_messages := [], content_cache := [] } 5
        { ctype := ContextType.SHARING, content := "https://example.com/a".data,
          isGroup := false, chatId := "alice".data })
      = ({ pending_messages := [], content_cache := [] }, HandlerAction.none) := by
  decide

/-- C3 amended: a SHARING message carrying a valid URL in a conversation
not eligible for auto-summarize creates a pending entry recording the
shared content and the current time ONLY in group conversations; in a
direct conversation the handler returns without touching the pending
cache. -/
theorem ineligible_share_pending_behavior (cfg : Config) (st : PluginState)
    (now : Int) (content chatId : Str)
    (hurl : checkUrl cfg content = true)
    (hnoG : shouldAutoSummarize cfg chatId true = false)
    (hnoD : shouldAutoSummarize cfg chatId false = false) :
    onHandleContext cfg st now
        { ctype := ContextType.SHARING, content := content, isGroup := true, chatId := chatId }
      = ({ cleanExpiredCache cfg st now with
            pending_messages :=
              putPending chatId content now (cleanExpiredCache cfg st now).pending_messages },
         HandlerAction.none)
    ∧ onHandleContext cfg st now
        { ctype := ContextType.SHARING, content := content, isGroup := false, chatId := chatId }
      = (cleanExpiredCache cfg st now, HandlerAction.none) := by
  constructor
  · simp [onHandleContext, hurl, hnoG]
  · simp [onHandleContext, hurl, hnoD]

/-- C3 amended, witnessed at a concrete configuration and share. -/
theorem ineligible_share_pending_behavior_witness :
    onHandleContext cfgNoAuto { pending_messages := [], content_cache := [] } 7
        { ctype := ContextType.SHARING, content := "https://example.com/a".data,
          isGroup := true, chatId := "grp".data }
      = ({ cleanExpiredCache cfgNoAuto { pending_messages := [], content_cache := [] } 7 with
            pending_messages :=
              putPending ( "grp".data) ( "https://example.com/a".data) 7
                (cleanExpiredCache cfgNoAuto { pending_messages := [], content_cache := [] } 7).pending_messages },
         HandlerAction.none)
    ∧ onHandleContext cfgNoAuto { pending_messages := [], content_cache := [] } 7
        { ctype := ContextType.SHARING, content := "https://example.com/a".data,
          isGroup := false, chatId := "grp".data }
      = (cleanExpiredCache cfgNoAuto { pending_messages := [], content_cache := [] } 7,
         HandlerAction.none) :=
  ineligible_share_pending_behavior cfgNoAuto _ 7 _ _ (by decide) (by decide) (by decide)

/-- C4: when the extraction call fails on every attempt, `_process_summary`
performs exactly 4 extraction attempts (the first plus 3 retries), makes
no completion call, sends the progress notice once, returns the terminal
`无法获取该内容` error reply carrying the last failure's message, and
never attempts a 5th time (the run is exactly this value). -/
theorem extraction_retry_bound (fetchJina fetchLLM : Nat → FetchResult)
    (cfg : Config) (unesc : Str → Str) (content chatId : Str)
    (cache : List (Str × CacheEntry)) (now : Int) (msgs : Nat → Str)
    (hfail : ∀ r, fetchJina r = FetchResult.err (msgs r)) :
    processSummary fetchJina fetchLLM cfg unesc content chatId cache now 0 false
      = { notices := 1, extractionAttempts := 4, completionAttempts := 0,
          reply := { rtype := ReplyType.ERROR,
                     content := "无法获取该内容: ".data ++ msgs 3 },
          contentCache := cache } := by
  have e0 := hfail 0
  have e1 := hfail 1
  have e2 := hfail 2
  have e3 := hfail 3
  rw [processSummary, processSummary, processSummary, processSummary]
  simp [extractStep, e0, e1, e2, e3]

/-- C4, witnessed at a concrete always-failing extraction oracle. -/
theorem extraction_retry_bound_witness :
    processSummary (fun _ => FetchResult.err ( "down".data))
        (fun _ => FetchResult.err []) baseConfig (fun s => s)
        ( "https://example.com/a".data) ( "g".data) [] 0 0 false
      = { notices := 1, extractionAttempts := 4, completionAttempts := 0,
          reply := { rtype := ReplyType.ERROR,
                     content := "无法获取该内容: ".data ++ "down".data },
          contentCache := [] } :=
  extraction_retry_bound (fun _ => FetchResult.err ( "down".data))
    (fun _ => FetchResult.err []) baseConfig (fun s => s)
    ( "https://example.com/a".data) ( "g".data) [] 0 (fun _ => ( "down".data))
    (fun _ => rfl)

/-- C5: a pending share put at time `t0` is still found by the purge-then-
lookup sequence (what every take does: `_clean_expired_cache` runs before
dispatch, and the take itself checks membership) at
`t0 + pending_timeout - 1`, and is absent — purged — at
`t0 + pending_timeout + 1`. -/
theorem pending_expiry_boundaries (cfg : Config) (st : PluginState)
    (chat content : Str) (t0 : Int) :
    alLookup chat (cleanExpiredCache cfg
        { st with pending_messages := putPending chat content t0 st.pending_messages }
        (t0 + cfg.pending_messages_timeout - 1)).pending_messages
      = some { content := content, timestamp := t0 }
    ∧ alLookup chat (cleanExpiredCache cfg
        { st with pending_messages := putPending chat content t0 st.pending_messages }
        (t0 + cfg.pending_messages_timeout + 1)).pending_messages
      = none := by
  constructor
  · have hkeep : ¬(t0 + cfg.pending_messages_timeout - 1 - t0 > cfg.pending_messages_timeout) := by
      omega
    simp [cleanExpiredCache, putPending, alInsert, List.filter_cons, hkeep, alLookup]
  · have hdrop : t0 + cfg.pending_messages_timeout + 1 - t0 > cfg.pending_messages_timeout := by
      omega
    simp [cleanExpiredCache, putPending, alInsert, List.filter_cons, hdrop,
      alLookup_filter_alErase]

/-- C6: after any non-empty sequence of shares from the same conversation
identity is applied to the pending cache, that identity has exactly one
entry, and it records the most recent share (each put overwrites the
previous entry for the identity). -/
theorem pending_overwrite_latest (chat : Str) (s0 : Str × Int)
    (ss : List (Str × Int)) (l : List (Str × PendingEntry)) :
    alCountKey chat (applyShares chat (s0 :: ss) l) = 1
    ∧ alLookup chat (applyShares chat (s0 :: ss) l)
        = some { content := (ss.getLastD s0).1, timestamp := (ss.getLastD s0).2 } := by
  induction ss generalizing s0 l with
  | nil =>
    refine ⟨?_, ?_⟩
    · simp [applyShares, putPending, alCountKey_alInsert]
    · simp [applyShares, putPending, alLookup_alInsert]
  | cons p ps ih =>
    have hgl : (p :: ps).getLastD s0 = ps.getLastD p := by
      cases ps <;> simp [List.getLastD]
    rw [hgl]
    have h := ih p (putPending chat s0.1 s0.2 l)
    simpa [applyShares] using h

/-- C7: the group TEXT message `@bot 总结 https://example.com/a` with the
configured command word `@bot` and the default URL lists is recognized as
a summarize trigger, and the inline URL `https://example.com/a` is
extracted and dispatched to the summarization orchestrator (with the
progress notice enabled). -/
theorem group_trigger_inline_url :
    onHandleContext cfgBot { pending_messages := [], content_cache := [] } 0
        { ctype := ContextType.TEXT, content := "@bot 总结 https://example.com/a".data,
          isGroup := true, chatId := "mygroup".data }
      = ({ pending_messages := [], content_cache := [] },
         HandlerAction.processSummary ( "https://example.com/a".data) false) := by
  decide

/-- C8: if the URL (as the validator sees it, i.e. stripped — the
validator strips before every comparison) starts with any configured
blacklist prefix, `_check_url` returns false, for every whitelist
whatsoever: the blacklist is tested first and takes precedence. -/
theorem blacklist_precedence (cfg : Config) (u b : Str)
    (hb : b ∈ cfg.black_url_list)
    (hpre : startsWithL (pyStrip u) b = true) :
    checkUrl cfg u = false := by
  have hany : cfg.black_url_list.any (fun x => startsWithL (pyStrip u) x) = true :=
    List.any_eq_true.mpr ⟨b, hb, hpre⟩
  unfold checkUrl
  cases hp : hasSchemeAndNetloc (pyStrip u) <;> simp [hp, hany]

/-- C8, witnessed on a URL that matches both the blacklist and the
whitelist. -/
theorem blacklist_precedence_witness :
    checkUrl cfgBW ( "https://b.example/page".data) = false :=
  blacklist_precedence cfgBW ( "https://b.example/page".data)
    ( "https://b.example".data) (by decide) (by decide)

/-- C9: a configured group command word only matches when followed by at
least one whitespace character: for any non-empty whitespace-free command
word not starting with the summarize keyword's first character, the group
TEXT message consisting of the word immediately followed by `总结` has no
command word stripped and is not recognized as a summarize trigger — the
handler does nothing. -/
theorem pfx_requires_whitespace (cfg : Config) (st : PluginState) (now : Int)
    (chat : Str) (pfx : Str)
    (hcfg : cfg.group_chat_pfx = [pfx])
    (hne : pfx ≠ [])
    (hws : ∀ c ∈ pfx, pyIsSpace c = false)
    (hz : pfx.head? ≠ some '总') :
    (onHandleContext cfg st now
        { ctype := ContextType.TEXT, content := pfx ++ "总结".data,
          isGroup := true, chatId := chat }).2
      = HandlerAction.none := by
  cases pfx with
  | nil => exact absurd rfl hne
  | cons c0 cs =>
  have hzz : ∀ c ∈ ( "总结".data), pyIsSpace c = false := by decide
  have hall : ∀ c ∈ ((c0 :: cs) ++ "总结".data), pyIsSpace c = false := by
    intro c hc
    rcases List.mem_append.mp hc with h1 | h2
    · exact hws c h1
    · exact hzz c h2
  have hstrip : pyStrip ((c0 :: cs) ++ "总结".data) = (c0 :: cs) ++ "总结".data :=
    pyStrip_eq_self _ hall
  have hc0 : pyIsSpace c0 = false := hws c0 (List.mem_cons_self c0 cs)
  have hwc : wsCount ((c0 :: cs) ++ "总结".data) = 0 := by
    simp [wsCount, List.takeWhile_cons, hc0]
  have hdrop : ((c0 :: cs) ++ "总结".data).drop (c0 :: cs).length = "总结".data := by
    simp
  have hns : pyIsSpace '总' = false := by decide
  have hzzl : ( "总结".data) = '总' :: '结' :: [] := rfl
  have htry : tryMatchAfterWs (c0 :: cs) ((c0 :: cs) ++ "总结".data) = none := by
    unfold tryMatchAfterWs
    rw [startsWithL_append_self]
    simp only [if_true]
    rw [hdrop, hzzl]
    simp [hns]
  have hmatch : matchGroupPfx (c0 :: cs) ((c0 :: cs) ++ "总结".data) = none := by
    unfold matchGroupPfx
    rw [hwc]
    exact htry
  have hc0z : ¬(c0 = '总') := by
    intro hcontra
    exact hz (by simp [hcontra])
  have htrig : startsWithL ((c0 :: cs) ++ "总结".data) ( "总结".data) = false := by
    show startsWithL (c0 :: (cs ++ "总结".data)) ('总' :: ['结']) = false
    simp [startsWithL, hc0z]
  rw [hzzl] at hmatch htrig
  simp only [List.cons_append] at hmatch htrig
  simp only [onHandleContext, hcfg]
  rw [hstrip]
  simp [applyGroupPfxs, hmatch, htrig]

/-- C9, witnessed at the command word `@bot` and the message `@bot总结`. -/
theorem pfx_requires_whitespace_witness :
    (onHandleContext cfgBot { pending_messages := [], content_cache := [] } 0
        { ctype := ContextType.TEXT, content := "@bot总结".data,
          isGroup := true, chatId := "g".data }).2
      = HandlerAction.none :=
  pfx_requires_whitespace cfgBot { pending_messages := [], content_cache := [] } 0
    ( "g".data) ( "@bot".data) rfl (by decide) (by decide) (by decide)

/-- C10: for every pair of oracles, every starting retry count and every
initial cache, a `_process_summary` run either leaves the content cache
exactly as it was, or some attempt fully succeeded — extraction returned a
body and the completion response parsed to a summary — in which case the
reply is that summary as plain text and the cache holds precisely the new
entry for the conversation on top of the old cache.  In particular every
failing run (extraction, completion call, or completion parsing) leaves
the cache entry unchanged: the write happens only after the summary text
has been extracted from the completion response. -/
theorem cache_written_only_on_success (fetchJina fetchLLM : Nat → FetchResult)
    (cfg : Config) (unesc : Str → Str) (content chatId : Str)
    (cache : List (Str × CacheEntry)) (now : Int) (rc : Nat) (skipNotice : Bool) :
    (processSummary fetchJina fetchLLM cfg unesc content chatId cache now rc skipNotice).contentCache
        = cache
    ∨ ∃ r body summary,
        extractStep fetchJina r = Except.ok body
        ∧ fetchLLM r = FetchResult.ok summary
        ∧ (processSummary fetchJina fetchLLM cfg unesc content chatId cache now rc skipNotice).reply
            = { rtype := ReplyType.TEXT, content := summary }
        ∧ (processSummary fetchJina fetchLLM cfg unesc content chatId cache now rc skipNotice).contentCache
            = alInsert chatId
                { url := unesc content, content := body.take cfg.max_words, timestamp := now }
                cache := by
  generalize hfuel : 3 - rc = fuel
  induction fuel generalizing rc skipNotice with
  | zero =>
    have h3 : ¬(rc < 3) := by omega
    rw [processSummary]
    cases hE : extractStep fetchJina rc with
    | error m => simp [hE, h3]
    | ok body =>
      cases hL : fetchLLM rc with
      | ok s =>
        right
        exact ⟨rc, body, s, hE, hL, by simp [hE, hL], by simp [hE, hL]⟩
      | err m => simp [hE, hL]
  | succ n ih =>
    have h3 : rc < 3 := by omega
    rw [processSummary]
    cases hE : extractStep fetchJina rc with
    | error m =>
      have hrec := ih (rc + 1) false (by omega)
      simp only [hE, h3, dif_pos]
      rcases hrec with hleft | ⟨r, body, s, hEr, hLr, hrep, hcc⟩
      · left
        simpa using hleft
      · right
        exact ⟨r, body, s, hEr, hLr, by simpa using hrep, by simpa using hcc⟩
    | ok body =>
      cases hL : fetchLLM rc with
      | ok s =>
        right
        exact ⟨rc, body, s, hE, hL, by simp [hE, hL], by simp [hE, hL]⟩
      | err m => simp [hE, hL]

end JinaSum
